import Mathlib

/-!
Verification of the CARTON evaluation pipeline (`task_analysis.py`).

The source under `src/` is the orchestration script `task_analysis.py`:
its `main` loads a checkpoint, computes losses over the validation and
test partitions, and scores the test partition; its `test` function runs
the per-batch loss loop. The helper components it imports
(`AverageMeter`, `construct_entity_target`, `Scorer`, `Predictor`, the
loss classes, the dataset and the model) are collaborators whose code is
not part of the provided source; where a claim depends on them they are
modelled from the specification, and each such definition says so in its
doc comment.

Numeric values are embedded as rationals (`Rat`); tensors of integer
ids as `List (List Nat)` in batch-first layout, matching the slicing
`tensor[:, 1:]` of the script.
-/

namespace Carton

/-- Error taxonomy of the specification (section 7). -/
inductive EvalError where
  | alignment
  | shapeMismatch
  | checkpointLoad
  | missingGold
  deriving DecidableEq, Repr

/-- The four per-task output streams of the model. -/
inductive TaskStream where
  | logicalForm
  | predicatePointer
  | typePointer
  | entityPointer
  deriving DecidableEq, Repr

/-- The task selector of the script (`args.task`): one of the four
single tasks or the multi-task regime. -/
inductive Task where
  | logicalForm
  | predicatePointer
  | typePointer
  | entityPointer
  | multitask
  deriving DecidableEq, Repr

/-- Dataset partitions handled by `main`. -/
inductive Partition where
  | val
  | test
  deriving DecidableEq, Repr

/-- Reserved padding symbol of every vocabulary. -/
def PAD_TOKEN : String := "[PAD]"

/-- Reserved no-entity symbol of the entity-pointer vocabulary. -/
def NA_TOKEN : String := "NA"

/-- A vocabulary: a symbol-to-index mapping (`stoi` in the source). -/
structure Vocab where
  stoi : String → Nat

/-- The vocabulary set `vocabs`: one mapping per task stream. -/
structure Vocabs where
  logicalForm : Vocab
  predicatePointer : Vocab
  typePointer : Vocab
  entityPointer : Vocab

/-- Select the vocabulary of a task stream. -/
def Vocabs.stream (v : Vocabs) : TaskStream → Vocab
  | .logicalForm => v.logicalForm
  | .predicatePointer => v.predicatePointer
  | .typePointer => v.typePointer
  | .entityPointer => v.entityPointer

/-- Modelled from the spec: `AverageMeter` (the RunningAverage utility
imported from `utils`, not under `src/`): `update value weight`
accumulates `value * weight` into a running sum and `weight` into a
running count; `avg` is sum divided by count, and 0 when the count
is 0. -/
structure AverageMeter where
  sum : Rat
  count : Rat

def AverageMeter.empty : AverageMeter := ⟨0, 0⟩

def AverageMeter.update (m : AverageMeter) (value : Rat) (weight : Rat) :
    AverageMeter :=
  ⟨m.sum + value * weight, m.count + weight⟩

def AverageMeter.avg (m : AverageMeter) : Rat :=
  if m.count = 0 then 0 else m.sum / m.count

/-- The per-batch data that reaches the loss-recording line of `test`
(`task_analysis.py` line 128): the scalar batch loss `loss.data`, the
number of examples `input.size(0)` and, for contrast, the padded time
dimension of the batch. -/
structure LossBatch where
  loss : Rat
  batchSize : Nat
  paddedLen : Nat

/-- The loss accumulation of `test` (`task_analysis.py` lines 99-130):
one `AverageMeter`, updated per batch with the scalar batch loss
weighted by `input.size(0)`, the sample count of the batch; the
function returns `losses.avg`. -/
def testLossPass (batches : List LossBatch) : Rat :=
  (batches.foldl
    (fun m b => m.update b.loss (b.batchSize : Rat)) AverageMeter.empty).avg

/-- Total sample count of a batch list. -/
def totalSamples (batches : List LossBatch) : Nat :=
  (batches.map LossBatch.batchSize).sum

/-- Sample-weighted loss sum of a batch list. -/
def weightedLossSum (batches : List LossBatch) : Rat :=
  (batches.map (fun b => b.loss * (b.batchSize : Rat))).sum

/-- A loss criterion as configured by the script: whether it is the
multi-task variant, and the ignore-index passed at construction. -/
structure Criterion where
  multi : Bool
  ignoreIndex : Nat
  deriving DecidableEq, Repr

/-- Constructor `SingleTaskLoss(ignore_index)` of `utils`. -/
def SingleTaskLoss (ignore_index : Nat) : Criterion := ⟨false, ignore_index⟩

/-- Constructor `MultiTaskLoss(ignore_index)` of `utils`. -/
def MultiTaskLoss (ignore_index : Nat) : Criterion := ⟨true, ignore_index⟩

/-- The criterion construction of `main` (`task_analysis.py` lines
50-56): a dictionary keyed by the task selector chooses the loss class,
and the chosen class is constructed with
`ignore_index = vocabs[LOGICAL_FORM].stoi[PAD_TOKEN]`. -/
def buildCriterion (task : Task) (vocabs : Vocabs) : Criterion :=
  (match task with
    | .logicalForm => SingleTaskLoss
    | .predicatePointer => SingleTaskLoss
    | .typePointer => SingleTaskLoss
    | .entityPointer => SingleTaskLoss
    | .multitask => MultiTaskLoss)
  (vocabs.logicalForm.stoi PAD_TOKEN)

/-- Modelled from the spec: the padding mask of `SingleTaskLoss`
(section 4.3, `utils` not under `src/`): a target position contributes
to the loss unless its value equals the configured ignore-index. -/
def Criterion.ignores (c : Criterion) (target : Nat) : Bool :=
  target == c.ignoreIndex

/-- Modelled from the spec: the positions of a flattened target vector
that `SingleTaskLoss` keeps (section 4.3): all positions whose value
differs from the ignore-index. -/
def Criterion.keptPositions (c : Criterion) (target : List Nat) : List Nat :=
  target.filter (fun t => !(c.ignores t))

/-- Example identifiers (`batch.id`). -/
abbrev ExampleId := Nat

/-- Modelled from the spec: a per-example helper alignment record
(section 3, HelperRecord; the helper store comes from `dataset`, not
under `src/`): `mentions` maps a decode position with an entity mention
to the pointer index into the context of the example; `decodeLen` is
the actual decode length of the example. -/
structure HelperRecord where
  mentions : List (Nat × Nat)
  decodeLen : Nat

/-- First-match association lookup of a mention at a decode position. -/
def mentionAt (rec : HelperRecord) (p : Nat) : Option Nat :=
  (rec.mentions.find? (fun m => m.fst == p)).map Prod.snd

/-- The helper store: example id to helper record, with an explicit
not-found result. -/
structure HelperStore where
  records : List (ExampleId × HelperRecord)

def HelperStore.lookup (h : HelperStore) (id : ExampleId) :
    Option HelperRecord :=
  (h.records.find? (fun r => decide (r.fst = id))).map Prod.snd

/-- Modelled from the spec: one row of the entity target (section 4.2):
for each decode position up to the target time-length, the resolved
pointer index of the mention at that position if there is one, else the
no-entity index; positions at or beyond the decode length of the
example hold the PAD index. -/
def entityTargetRow (vocabs : Vocabs) (rec : HelperRecord) (timeLen : Nat) :
    List Nat :=
  (List.range timeLen).map (fun p =>
    if p < rec.decodeLen then
      match mentionAt rec p with
      | some c => c
      | none => vocabs.entityPointer.stoi NA_TOKEN
    else vocabs.entityPointer.stoi PAD_TOKEN)

/-- Modelled from the spec: `construct_entity_target` (section 4.2,
`utils` not under `src/`): builds the entity target tensor row by row
from the batch ids and the helper store; an id absent from the store is
a fatal `AlignmentError` that aborts the whole construction rather than
skipping the example. -/
def construct_entity_target (ids : List ExampleId) (helper_data : HelperStore)
    (vocabs : Vocabs) (timeLen : Nat) :
    Except EvalError (List (List Nat)) :=
  match ids with
  | [] => .ok []
  | id :: rest =>
    match helper_data.lookup id with
    | none => .error .alignment
    | some rec =>
      match construct_entity_target rest helper_data vocabs timeLen with
      | .error e => .error e
      | .ok rows => .ok (entityTargetRow vocabs rec timeLen :: rows)

/-- A batch as consumed by `test`: parallel integer tensors in
batch-first layout, plus the example ids. -/
structure Batch where
  ids : List ExampleId
  input : List (List Nat)
  logical_form : List (List Nat)
  predicate_pointer : List (List Nat)
  type_pointer : List (List Nat)
  entity_pointer : List (List Nat)

/-- Slicing `tensor[:, :-1]`: every row loses its last position. -/
def dropLastCol (rows : List (List Nat)) : List (List Nat) :=
  rows.map List.dropLast

/-- Target preparation `tensor[:, 1:].contiguous().view(-1)`
(`task_analysis.py` lines 118-121): every row loses its first position
and the result is flattened to one vector. -/
def shiftFlatten (rows : List (List Nat)) : List Nat :=
  (rows.map (List.drop 1)).flatten

/-- Trailing time dimension `tensor.shape[-1]` of a rectangular
batch-first tensor. -/
def timeDim (rows : List (List Nat)) : Nat :=
  (rows.headD []).length

/-- The raw (unflattened) sequence of a task stream in a batch, with the
entity stream replaced by a provided entity target tensor, as in the
target dictionary of `test`. -/
def Batch.streamRows (b : Batch) (entity_t : List (List Nat)) :
    TaskStream → List (List Nat)
  | .logicalForm => b.logical_form
  | .predicatePointer => b.predicate_pointer
  | .typePointer => b.type_pointer
  | .entityPointer => entity_t

/-- The per-batch preparation of `test` (`task_analysis.py` lines
105-122): the entity target is constructed from the batch ids with
time-length `predicate_t.shape[-1]`; the model is fed
`logical_form[:, :-1]`; each task target is the stream with its first
position dropped and flattened. -/
structure PreparedBatch where
  modelDecoderInput : List (List Nat)
  target : TaskStream → List Nat

def prepareBatch (b : Batch) (helper_data : HelperStore) (vocabs : Vocabs) :
    Except EvalError PreparedBatch :=
  match construct_entity_target b.ids helper_data vocabs
      (timeDim b.predicate_pointer) with
  | .error e => .error e
  | .ok entity_t =>
    .ok ⟨dropLastCol b.logical_form,
         fun t => shiftFlatten (b.streamRows entity_t t)⟩

/-- The mutable mode bits touched by the evaluation pass: the train/eval
mode of the model (`model.training` in PyTorch) and the global autograd
grad-enabled mode. -/
structure TorchState where
  training : Bool
  gradEnabled : Bool
  deriving DecidableEq, Repr

/-- A state computation that either completes normally (`true`) or exits
by raising an exception (`false`), in both cases yielding the state at
the exit point. -/
abbrev Comp : Type := TorchState → Bool × TorchState

/-- The semantics of `with torch.no_grad():` around a body: the previous
grad-enabled flag is saved, the body runs with gradients disabled, and
the flag is restored at the exit of the block on both the normal and the
exceptional path (a context manager runs its exit handler before a
raised exception propagates). -/
def noGrad (body : Comp) : Comp := fun s =>
  let prev := s.gradEnabled
  let r := body { s with gradEnabled := false }
  (r.fst, { r.snd with gradEnabled := prev })

/-- The mode handling of `test` (`task_analysis.py` lines 98-104):
`model.eval()` switches the model to evaluation mode, then the batch
loop runs inside `with torch.no_grad():`. The loop body is an arbitrary
computation because it may raise (for instance the alignment failure of
`construct_entity_target`). -/
def testModePass (loopBody : Comp) : Comp := fun s =>
  noGrad loopBody { s with training := false }

/-- One scored example as seen by the Scorer: its question-type category
label and, per task stream, whether the decoded sequence of the
Predictor is an exact match of the gold sequence. -/
structure ScoredExample where
  questionType : String
  exactMatch : TaskStream → Bool

/-- Per category and task: count of exact matches among the examples of
the category. -/
def catMatches (examples : List ScoredExample) (c : String)
    (t : TaskStream) : Nat :=
  (examples.filter (fun e => e.questionType == c && e.exactMatch t)).length

/-- Per category: count of examples carrying the category label. -/
def catTotal (examples : List ScoredExample) (c : String) : Nat :=
  (examples.filter (fun e => e.questionType == c)).length

/-- Aggregated counts of one (category, task) cell. -/
structure CatTaskStat where
  matchCount : Nat
  total : Nat
  deriving DecidableEq, Repr

/-- Reported accuracy of a cell: matches over total. -/
def CatTaskStat.accuracy (s : CatTaskStat) : Rat :=
  (s.matchCount : Rat) / (s.total : Rat)

/-- The results table: question-type category to per-task-stream
aggregated counts, in first insertion order. -/
abbrev Table : Type := List (String × (TaskStream → CatTaskStat))

def zeroStats : TaskStream → CatTaskStat := fun _ => ⟨0, 0⟩

/-- Fold one example into the per-task counts of its category. -/
def bumpStats (e : ScoredExample) (s : TaskStream → CatTaskStat) :
    TaskStream → CatTaskStat :=
  fun t =>
    ⟨(s t).matchCount + (if e.exactMatch t then 1 else 0), (s t).total + 1⟩

/-- Fold one example into the table, creating the entry of its category
when the category appears for the first time. -/
def insertExample (table : Table) (e : ScoredExample) : Table :=
  match table with
  | [] => [(e.questionType, bumpStats e zeroStats)]
  | (c, s) :: rest =>
    if c = e.questionType then (c, bumpStats e s) :: rest
    else (c, s) :: insertExample rest e

/-- Modelled from the spec: the aggregation of `Scorer.data_score`
(section 4.5, `utils` not under `src/`): every example is folded into
the table of its question-type category, so the table holds exactly the
categories that occur and, per cell, the match and example counts. -/
def data_score (examples : List ScoredExample) : Table :=
  examples.foldl insertExample []

/-- First-match lookup of a category in the table. -/
def lookupTable (table : Table) (c : String) :
    Option (TaskStream → CatTaskStat) :=
  match table with
  | [] => none
  | (c0, s) :: rest => if c0 = c then some s else lookupTable rest c

/-- Modelled from the spec: the scoring interface of the model inside
the Predictor (section 4.4, `utils` and `model` not under `src/`): given
the logical-form prefix decoded so far (the fed-back input) it yields,
per task stream, the score list over that vocabulary for the next
step. The input context and entity representation of the example are
fixed inside this function. -/
abbrev PModel : Type := List Nat → TaskStream → List Rat

/-- The symbols emitted at one decode step, one per task stream. -/
abbrev Emission : Type := TaskStream → Nat

/-- End-of-sequence id on the logical-form stream. -/
def END_ID : Nat := 2

/-- Greedy arg-max as a property: `i` is the first position of the
maximum of the score list. -/
def IsFirstMax (scores : List Rat) (i : Nat) : Prop :=
  i < scores.length ∧
  (∀ j, j < scores.length → scores.getD j 0 ≤ scores.getD i 0) ∧
  ∀ j, j < i → scores.getD j 0 < scores.getD i 0

/-- One emission is the greedy choice at the current prefix: per task
stream, the first arg-max of the scores of the model. -/
def GreedyAt (m : PModel) (lf : List Nat) (e : Emission) : Prop :=
  ∀ t, IsFirstMax (m lf t) (e t)

/-- Modelled from the spec: the decode loop of the Predictor
(section 4.4): starting from a logical-form prefix with the fuel of the
maximum-length bound, each step emits the greedy symbols of all four
streams; the logical-form symbol is fed back into the prefix; the loop
stops when the end marker appears on the logical-form stream (the end
step is excluded from the output) or when the bound is reached. -/
inductive DecodeRun (m : PModel) : Nat → List Nat → List Emission → Prop
  | maxed (lf : List Nat) : DecodeRun m 0 lf []
  | stop (n : Nat) (lf : List Nat) (e : Emission) :
      GreedyAt m lf e → e .logicalForm = END_ID →
      DecodeRun m (n + 1) lf []
  | step (n : Nat) (lf : List Nat) (e : Emission) (rest : List Emission) :
      GreedyAt m lf e → e .logicalForm ≠ END_ID →
      DecodeRun m n (lf ++ [e .logicalForm]) rest →
      DecodeRun m (n + 1) lf (e :: rest)

/-- First position of the maximum of a score list, computably. -/
def firstMaxIdx : List Rat → Nat
  | [] => 0
  | x :: rest =>
    if rest.getD (firstMaxIdx rest) x ≤ x then 0 else firstMaxIdx rest + 1

/-- Executable greedy decoding: the function computed by the Predictor. -/
def predictRun (m : PModel) (fuel : Nat) (lf : List Nat) :
    List Emission :=
  match fuel with
  | 0 => []
  | n + 1 =>
    if firstMaxIdx (m lf .logicalForm) = END_ID then []
    else (fun t => firstMaxIdx (m lf t)) ::
      predictRun m n (lf ++ [firstMaxIdx (m lf .logicalForm)])

/-- Structural signature of a parameter set: parameter names with their
shapes, the data `load_state_dict` validates. -/
abbrev StateSig : Type := List (String × List Nat)

/-- A checkpoint bundle: the training-epoch marker and the parameter
set (abstracted to its structural signature). -/
structure Checkpoint where
  epoch : Nat
  state_dict : StateSig

/-- Modelled from the spec: checkpoint validation (section 6; the
parameter loading is the external `model.load_state_dict` call of
`main`): the parameter set must be structurally compatible with the
constructed model, otherwise the load fails with
`CheckpointLoadError`. -/
def load_state_dict (modelSig : StateSig) (ck : StateSig) :
    Except EvalError Unit :=
  if ck = modelSig then .ok () else .error .checkpointLoad

/-- The units of evaluation work `main` can perform after the
checkpoint load. -/
inductive EvalStep where
  | lossPass (p : Partition)
  | scorePass (p : Partition)
  | writeResults
  deriving DecidableEq, Repr

/-- Everything `main` consumes: the signature of the constructed model,
the checkpoint, per-partition loss batches, and the scored test
examples. -/
structure MainInput where
  modelSig : StateSig
  checkpoint : Checkpoint
  valBatches : List LossBatch
  testBatches : List LossBatch
  testExamples : List ScoredExample

/-- Everything `main` reports. -/
structure MainOutput where
  start_epoch : Nat
  valLoss : Rat
  testLoss : Rat
  results : Table

/-- The orchestration of `main` (`task_analysis.py` lines 39-96): load
and validate the checkpoint, record its epoch; then the validation loss
pass, the test loss pass, the scoring pass over the test examples, and
the persisting of the results table. The returned list records the
evaluation work actually performed, in order. -/
def mainRun (inp : MainInput) : List EvalStep × Except EvalError MainOutput :=
  match load_state_dict inp.modelSig inp.checkpoint.state_dict with
  | .error e => ([], .error e)
  | .ok _ =>
    ([.lossPass .val, .lossPass .test, .scorePass .test, .writeResults],
     .ok ⟨inp.checkpoint.epoch,
          testLossPass inp.valBatches,
          testLossPass inp.testBatches,
          data_score inp.testExamples⟩)

/-- Element of a row-major list of rows at row `i`, position `p`. -/
def elemAt (rows : List (List Nat)) (i p : Nat) : Option Nat :=
  (rows[i]?).bind (fun r => r[p]?)

/-- Concrete vocabulary set used by the concrete-input theorems. -/
def testVocabs : Vocabs :=
  ⟨⟨fun s => if s = PAD_TOKEN then 0 else 3⟩,
   ⟨fun s => if s = PAD_TOKEN then 0 else 4⟩,
   ⟨fun s => if s = PAD_TOKEN then 0 else 5⟩,
   ⟨fun s => if s = NA_TOKEN then 9 else if s = PAD_TOKEN then 0 else 6⟩⟩

/-- Concrete helper store used by the concrete-input theorems: example 7
has a mention at decode position 1 pointing to context index 4, and
decode length 3. -/
def testStore : HelperStore := ⟨[(7, ⟨[(1, 4)], 3⟩)]⟩

/-- Correctness invariant tying a results table to the example list it
was folded from: categories absent from the table have no examples, and
every table entry carries the exact per-task match count and example
count of its category. -/
def StatsOK (ex : List ScoredExample) (table : Table) : Prop :=
  ∀ c, (lookupTable table c = none → catTotal ex c = 0) ∧
    ∀ s, lookupTable table c = some s →
      0 < catTotal ex c ∧
      ∀ t, (s t).matchCount = catMatches ex c t ∧
        (s t).total = catTotal ex c

/-- Concrete scored examples used by the concrete-input theorems: one
category with one fully matching and one fully mismatching example. -/
def exA : List ScoredExample :=
  [⟨"A", fun _ => true⟩, ⟨"A", fun _ => false⟩]

/-- Concrete one-example batch used by the concrete-input theorems. -/
def testBatch : Batch :=
  ⟨[7], [[1, 1]], [[1, 2, 3]], [[4, 5, 6]], [[7, 8, 9]], [[0, 0, 0]]⟩

/-- The prepared form of `testBatch`: its entity target resolves to
`[[9, 4, 9]]` under `testStore` and `testVocabs`. -/
def testPrepared : PreparedBatch :=
  ⟨dropLastCol testBatch.logical_form,
   fun t => shiftFlatten (testBatch.streamRows [[9, 4, 9]] t)⟩

end Carton

namespace Carton

/-! ## Theorems -/

theorem foldl_update_eq (batches : List LossBatch) (m : AverageMeter) :
    batches.foldl (fun m b => m.update b.loss (b.batchSize : Rat)) m =
      ⟨m.sum + weightedLossSum batches,
       m.count + (totalSamples batches : Rat)⟩ := by
  induction batches generalizing m with
  | nil => simp [weightedLossSum, totalSamples]
  | cons b bs ih =>
    rw [List.foldl_cons, ih]
    simp only [AverageMeter.update, weightedLossSum, totalSamples,
      List.map_cons, List.sum_cons, AverageMeter.mk.injEq, Nat.cast_add]
    constructor <;> push_cast <;> ring

/-- Claim C1: during loss evaluation each batch updates the running
meter with its scalar loss weighted by the sample count of the batch,
so the returned loss is the per-sample weighted mean; the padded
sequence length of a batch has no influence on the result. -/
theorem testLoss_is_sample_weighted_mean (batches : List LossBatch)
    (h : 0 < totalSamples batches) :
    testLossPass batches =
      weightedLossSum batches / (totalSamples batches : Rat) ∧
    ∀ g : LossBatch → Nat,
      testLossPass (batches.map (fun b => ⟨b.loss, b.batchSize, g b⟩)) =
        testLossPass batches := by
  have hne : ((totalSamples batches : Nat) : Rat) ≠ 0 := by
    exact_mod_cast Nat.pos_iff_ne_zero.mp h
  constructor
  · unfold testLossPass
    rw [foldl_update_eq]
    simp [AverageMeter.avg, AverageMeter.empty, hne]
  · intro g
    unfold testLossPass
    rw [foldl_update_eq, foldl_update_eq]
    have h1 : weightedLossSum
        (batches.map (fun b => ⟨b.loss, b.batchSize, g b⟩)) =
        weightedLossSum batches := by
      simp only [weightedLossSum, List.map_map]
      rfl
    have h2 : totalSamples
        (batches.map (fun b => ⟨b.loss, b.batchSize, g b⟩)) =
        totalSamples batches := by
      simp only [totalSamples, List.map_map]
      rfl
    rw [h1, h2]

/-- Witness for C1: two batches of sizes 4 and 1 with losses 2 and 5
(and padded lengths 6 and 7) yield the sample-weighted mean. -/
theorem testLoss_is_sample_weighted_mean_witness :
    0 < totalSamples [⟨2, 4, 6⟩, ⟨5, 1, 7⟩] ∧
    testLossPass [⟨2, 4, 6⟩, ⟨5, 1, 7⟩] =
      weightedLossSum [⟨2, 4, 6⟩, ⟨5, 1, 7⟩] /
        (totalSamples [⟨2, 4, 6⟩, ⟨5, 1, 7⟩] : Rat) :=
  ⟨by decide,
   (testLoss_is_sample_weighted_mean [⟨2, 4, 6⟩, ⟨5, 1, 7⟩] (by decide)).1⟩

/-- Claim C9: whatever the selected task, the criterion is built with
ignore-index equal to the PAD index of the logical-form vocabulary, so
a PAD position of another task stream is masked exactly when that
vocabulary assigns PAD the same index as the logical-form one. -/
theorem criterion_ignore_index_is_lf_pad (task : Task) (vocabs : Vocabs) :
    (buildCriterion task vocabs).ignoreIndex =
      vocabs.logicalForm.stoi PAD_TOKEN ∧
    ∀ t : TaskStream,
      ((buildCriterion task vocabs).ignores
          ((vocabs.stream t).stoi PAD_TOKEN) = true ↔
        (vocabs.stream t).stoi PAD_TOKEN =
          vocabs.logicalForm.stoi PAD_TOKEN) := by
  have hidx : (buildCriterion task vocabs).ignoreIndex =
      vocabs.logicalForm.stoi PAD_TOKEN := by
    cases task <;> rfl
  refine ⟨hidx, fun t => ?_⟩
  simp [Criterion.ignores, hidx]

/-- Witness for C9 at the multi-task selector and the concrete
vocabulary set. -/
theorem criterion_ignore_index_is_lf_pad_witness :
    (buildCriterion Task.multitask testVocabs).ignoreIndex =
      testVocabs.logicalForm.stoi PAD_TOKEN :=
  (criterion_ignore_index_is_lf_pad Task.multitask testVocabs).1

/-- Claim C2 is false as stated: the train/eval mode of the model is a
mode of the model switched by the pass, and it is not restored; at a
concrete start state in training mode and a loop body that completes
normally, the pass exits with the model still in eval mode. -/
theorem testModePass_training_not_restored :
    ¬ (((testModePass (fun u => (true, u)) ⟨true, true⟩).snd).training =
        (⟨true, true⟩ : TorchState).training) := by
  decide

/-- Claim C2 (amended): the pass switches the model to eval mode and
runs its body with gradients disabled; the grad-enabled mode is
restored on every exit path, normal or exceptional, while the model
remains in eval mode after the pass (its prior train/eval mode is not
restored). -/
theorem testModePass_scoped_no_grad (s : TorchState) (body : Comp)
    (hbody : ∀ u, ((body u).snd).training = u.training) :
    ((testModePass body s).snd).gradEnabled = s.gradEnabled ∧
    ((testModePass body s).snd).training = false ∧
    testModePass body s =
      ((body ⟨false, false⟩).fst,
       { (body ⟨false, false⟩).snd with gradEnabled := s.gradEnabled }) := by
  refine ⟨rfl, ?_, rfl⟩
  show ((body ⟨false, false⟩).snd).training = false
  rw [hbody ⟨false, false⟩]

/-- Witness for C2 (amended) at a body that exits by exception: the
grad mode is restored and the model is left in eval mode. -/
theorem testModePass_scoped_no_grad_witness :
    ((testModePass (fun u => (false, u)) ⟨true, true⟩).snd).gradEnabled =
      true ∧
    ((testModePass (fun u => (false, u)) ⟨true, true⟩).snd).training =
      false :=
  ⟨(testModePass_scoped_no_grad ⟨true, true⟩ (fun u => (false, u))
      (fun _ => rfl)).1,
   (testModePass_scoped_no_grad ⟨true, true⟩ (fun u => (false, u))
      (fun _ => rfl)).2.1⟩

/-- Claim C3 is false as stated: at a concrete input with a compatible
checkpoint the completed run performs no scoring pass over the
validation partition. -/
theorem mainRun_no_val_scoring :
    (mainRun ⟨[], ⟨3, []⟩, [], [], []⟩).fst =
      [.lossPass .val, .lossPass .test, .scorePass .test, .writeResults] ∧
    EvalStep.scorePass .val ∉ (mainRun ⟨[], ⟨3, []⟩, [], [], []⟩).fst := by
  decide

/-- Claim C3 (amended): after loading a compatible checkpoint, main
runs the loss computation over the validation and the test partitions
and the accuracy scoring over the test partition only, then persists
the results; the reported numbers are the loss-pass and scoring
results of those partitions. -/
theorem mainRun_evaluation_work (inp : MainInput)
    (h : inp.checkpoint.state_dict = inp.modelSig) :
    (mainRun inp).fst =
      [.lossPass .val, .lossPass .test, .scorePass .test, .writeResults] ∧
    EvalStep.scorePass .val ∉ (mainRun inp).fst ∧
    ∀ out, (mainRun inp).snd = .ok out →
      out.valLoss = testLossPass inp.valBatches ∧
      out.testLoss = testLossPass inp.testBatches ∧
      out.results = data_score inp.testExamples := by
  have hl : load_state_dict inp.modelSig inp.checkpoint.state_dict =
      .ok () := by
    simp [load_state_dict, h]
  unfold mainRun
  rw [hl]
  refine ⟨rfl, ?_, ?_⟩
  · show EvalStep.scorePass .val ∉
      [EvalStep.lossPass .val, .lossPass .test, .scorePass .test,
       .writeResults]
    decide
  intro out hout
  injection hout with h'
  subst h'
  exact ⟨rfl, rfl, rfl⟩

/-- Witness for C3 (amended) at a concrete compatible input. -/
theorem mainRun_evaluation_work_witness :
    (mainRun ⟨[("w", [2])], ⟨5, [("w", [2])]⟩, [], [], []⟩).fst =
      [.lossPass .val, .lossPass .test, .scorePass .test, .writeResults] :=
  (mainRun_evaluation_work ⟨[("w", [2])], ⟨5, [("w", [2])]⟩, [], [], []⟩
    rfl).1

/-- Claim C5: the loader reads the epoch marker into the reported
start epoch, validates the parameter set against the model signature,
and on mismatch the run ends with CheckpointLoadError with no
evaluation step performed. -/
theorem checkpoint_load_validates (inp : MainInput) :
    (inp.checkpoint.state_dict ≠ inp.modelSig →
      mainRun inp = ([], .error .checkpointLoad)) ∧
    ∀ out, (mainRun inp).snd = .ok out →
      out.start_epoch = inp.checkpoint.epoch ∧
      inp.checkpoint.state_dict = inp.modelSig := by
  constructor
  · intro hne
    unfold mainRun load_state_dict
    rw [if_neg hne]
  · intro out hout
    unfold mainRun load_state_dict at hout
    by_cases h : inp.checkpoint.state_dict = inp.modelSig
    · rw [if_pos h] at hout
      injection hout with h'
      subst h'
      exact ⟨rfl, h⟩
    · rw [if_neg h] at hout
      cases hout

/-- Witness for C5: a structurally incompatible checkpoint aborts with
CheckpointLoadError and an empty list of evaluation steps. -/
theorem checkpoint_load_validates_witness :
    mainRun ⟨[("w", [2])], ⟨3, []⟩, [], [], []⟩ =
      ([], .error .checkpointLoad) :=
  (checkpoint_load_validates ⟨[("w", [2])], ⟨3, []⟩, [], [], []⟩).1
    (by decide)

/-- Claim C4: an example id absent from the helper store makes the
entity-target construction fail with the fatal AlignmentError, which
aborts the whole construction rather than skipping the example or
substituting a default target. -/
theorem construct_entity_target_missing_id_fatal
    (ids : List ExampleId) (helper_data : HelperStore) (vocabs : Vocabs)
    (timeLen : Nat)
    (h : ∃ id ∈ ids, helper_data.lookup id = none) :
    construct_entity_target ids helper_data vocabs timeLen =
      .error .alignment := by
  induction ids with
  | nil =>
    obtain ⟨id, hid, _⟩ := h
    cases hid
  | cons a rest ih =>
    obtain ⟨id, hid, hnone⟩ := h
    rcases List.mem_cons.mp hid with heq | hmem
    · subst heq
      unfold construct_entity_target
      rw [hnone]
    · unfold construct_entity_target
      cases hl : helper_data.lookup a with
      | none => rfl
      | some rec =>
        rw [ih ⟨id, hmem, hnone⟩]

/-- Witness for C4: a batch whose only id is absent from an empty
helper store aborts with AlignmentError. -/
theorem construct_entity_target_missing_id_fatal_witness :
    construct_entity_target [5] ⟨[]⟩ testVocabs 3 = .error .alignment :=
  construct_entity_target_missing_id_fatal [5] ⟨[]⟩ testVocabs 3
    ⟨5, by decide, rfl⟩

theorem construct_ok_get (ids : List ExampleId) (helper_data : HelperStore)
    (vocabs : Vocabs) (timeLen : Nat) (rows : List (List Nat))
    (h : construct_entity_target ids helper_data vocabs timeLen = .ok rows) :
    rows.length = ids.length ∧
    ∀ i, (hi : i < ids.length) → ∃ rec,
      helper_data.lookup (ids.get ⟨i, hi⟩) = some rec ∧
      rows[i]? = some (entityTargetRow vocabs rec timeLen) := by
  induction ids generalizing rows with
  | nil =>
    unfold construct_entity_target at h
    injection h with h'
    subst h'
    exact ⟨rfl, fun i hi => absurd hi (by simp)⟩
  | cons a rest ih =>
    unfold construct_entity_target at h
    cases hl : helper_data.lookup a with
    | none =>
      rw [hl] at h
      cases h
    | some rec =>
      rw [hl] at h
      cases hc : construct_entity_target rest helper_data vocabs timeLen with
      | error e =>
        rw [hc] at h
        cases h
      | ok rest_rows =>
        rw [hc] at h
        injection h with h'
        subst h'
        obtain ⟨hlen, hget⟩ := ih rest_rows hc
        refine ⟨by simp [hlen], ?_⟩
        intro i hi
        cases i with
        | zero => exact ⟨rec, hl, by simp⟩
        | succ j =>
          have hj : j < rest.length := Nat.lt_of_succ_lt_succ hi
          obtain ⟨rec2, hrec2, hrow2⟩ := hget j hj
          exact ⟨rec2, hrec2, by simpa using hrow2⟩

theorem entityTargetRow_getElem (vocabs : Vocabs) (rec : HelperRecord)
    (timeLen p : Nat) (hp : p < timeLen) :
    (entityTargetRow vocabs rec timeLen)[p]? =
      some (if p < rec.decodeLen then
              match mentionAt rec p with
              | some c => c
              | none => vocabs.entityPointer.stoi NA_TOKEN
            else vocabs.entityPointer.stoi PAD_TOKEN) := by
  simp [entityTargetRow, List.getElem?_map, List.getElem?_range, hp]

/-- Claim C6: for every example of a batch whose entity target is built
successfully: a decode position with a mention pointing to context
index c holds c, a mentionless position inside the decode length holds
the no-entity index, and every position at or beyond the decode length
holds the PAD index. -/
theorem entity_target_values (ids : List ExampleId)
    (helper_data : HelperStore) (vocabs : Vocabs) (timeLen : Nat)
    (rows : List (List Nat)) (i : Nat) (rec : HelperRecord)
    (hok : construct_entity_target ids helper_data vocabs timeLen =
      .ok rows)
    (hi : i < ids.length)
    (hrec : helper_data.lookup (ids.get ⟨i, hi⟩) = some rec) :
    rows.length = ids.length ∧
    (∀ p c, p < timeLen → p < rec.decodeLen → mentionAt rec p = some c →
      elemAt rows i p = some c) ∧
    (∀ p, p < timeLen → p < rec.decodeLen → mentionAt rec p = none →
      elemAt rows i p = some (vocabs.entityPointer.stoi NA_TOKEN)) ∧
    (∀ p, p < timeLen → rec.decodeLen ≤ p →
      elemAt rows i p = some (vocabs.entityPointer.stoi PAD_TOKEN)) := by
  obtain ⟨hlen, hget⟩ :=
    construct_ok_get ids helper_data vocabs timeLen rows hok
  obtain ⟨rec2, hrec2, hrow⟩ := hget i hi
  rw [hrec] at hrec2
  injection hrec2 with he
  subst he
  have helem : ∀ p, p < timeLen → elemAt rows i p =
      some (if p < rec.decodeLen then
              match mentionAt rec p with
              | some c => c
              | none => vocabs.entityPointer.stoi NA_TOKEN
            else vocabs.entityPointer.stoi PAD_TOKEN) := by
    intro p hp
    unfold elemAt
    rw [hrow]
    show (entityTargetRow vocabs rec timeLen)[p]? = _
    exact entityTargetRow_getElem vocabs rec timeLen p hp
  refine ⟨hlen, ?_, ?_, ?_⟩
  · intro p c hp hdl hm
    rw [helem p hp, if_pos hdl, hm]
  · intro p hp hdl hm
    rw [helem p hp, if_pos hdl, hm]
  · intro p hp hdl
    rw [helem p hp, if_neg (Nat.not_lt.mpr hdl)]

/-- Witness for C6: at the concrete store the single-row target over 5
positions is [9, 4, 9, 0, 0]: the mention at position 1 resolves to 4,
mentionless positions inside decode length 3 hold the no-entity index
9, and positions 3 and 4 hold the PAD index 0. -/
theorem entity_target_values_witness :
    elemAt [[9, 4, 9, 0, 0]] 0 1 = some 4 ∧
    elemAt [[9, 4, 9, 0, 0]] 0 0 = some 9 ∧
    elemAt [[9, 4, 9, 0, 0]] 0 4 = some 0 := by
  have h := entity_target_values [7] testStore testVocabs 5
    [[9, 4, 9, 0, 0]] 0 ⟨[(1, 4)], 3⟩ (by rfl) (by decide) (by rfl)
  exact ⟨h.2.1 1 4 (by decide) (by decide) rfl,
         h.2.2.1 0 (by decide) (by decide) rfl,
         h.2.2.2 4 (by decide) (by decide)⟩

theorem catTotal_append (ex : List ScoredExample) (e : ScoredExample)
    (c : String) :
    catTotal (ex ++ [e]) c =
      catTotal ex c + (if e.questionType = c then 1 else 0) := by
  by_cases h : e.questionType = c <;>
    simp [catTotal, List.filter_append, h]

theorem catMatches_append (ex : List ScoredExample) (e : ScoredExample)
    (c : String) (t : TaskStream) :
    catMatches (ex ++ [e]) c t =
      catMatches ex c t +
        (if e.questionType = c then
          (if e.exactMatch t then 1 else 0) else 0) := by
  by_cases h : e.questionType = c <;>
    cases hm : e.exactMatch t <;>
    simp [catMatches, List.filter_append, h, hm]

theorem catMatches_le_catTotal (ex : List ScoredExample) (c : String)
    (t : TaskStream) : catMatches ex c t ≤ catTotal ex c := by
  induction ex with
  | nil => simp [catMatches, catTotal]
  | cons e rest ih =>
    simp only [catMatches, catTotal, List.filter_cons] at ih ⊢
    cases h1 : (e.questionType == c) <;> cases h2 : e.exactMatch t <;>
      simp [h1, h2] <;> omega

theorem lookupTable_insert_self (table : Table) (e : ScoredExample) :
    lookupTable (insertExample table e) e.questionType =
      some (bumpStats e
        ((lookupTable table e.questionType).getD zeroStats)) := by
  induction table with
  | nil => simp [insertExample, lookupTable]
  | cons entry rest ih =>
    obtain ⟨c, s⟩ := entry
    by_cases h : c = e.questionType
    · subst h
      simp [insertExample, lookupTable]
    · simp [insertExample, lookupTable, h, ih]

theorem lookupTable_insert_ne (table : Table) (e : ScoredExample)
    (c : String) (h : c ≠ e.questionType) :
    lookupTable (insertExample table e) c = lookupTable table c := by
  induction table with
  | nil => simp [insertExample, lookupTable, Ne.symm h]
  | cons entry rest ih =>
    obtain ⟨c0, s⟩ := entry
    by_cases h0 : c0 = e.questionType
    · subst h0
      simp [insertExample, lookupTable, Ne.symm h]
    · by_cases h1 : c0 = c
      · subst h1
        simp [insertExample, lookupTable, h0]
      · simp [insertExample, lookupTable, h0, h1, ih]

theorem StatsOK_insert (ex : List ScoredExample) (table : Table)
    (e : ScoredExample) (hok : StatsOK ex table) :
    StatsOK (ex ++ [e]) (insertExample table e) := by
  intro c
  by_cases hc : c = e.questionType
  · subst hc
    constructor
    · intro hnone
      rw [lookupTable_insert_self] at hnone
      cases hnone
    · intro s hs
      rw [lookupTable_insert_self] at hs
      injection hs with hs'
      subst hs'
      have htot : catTotal (ex ++ [e]) e.questionType =
          catTotal ex e.questionType + 1 := by
        rw [catTotal_append]
        simp
      have hmat : ∀ t, catMatches (ex ++ [e]) e.questionType t =
          catMatches ex e.questionType t +
            (if e.exactMatch t then 1 else 0) := by
        intro t
        rw [catMatches_append]
        simp
      refine ⟨by omega, ?_⟩
      intro t
      cases hl : lookupTable table e.questionType with
      | none =>
        have h0 : catTotal ex e.questionType = 0 := (hok e.questionType).1 hl
        have h0m : catMatches ex e.questionType t = 0 :=
          Nat.le_zero.mp (h0 ▸ catMatches_le_catTotal ex e.questionType t)
        constructor
        · simp [bumpStats, zeroStats, hmat t, h0m]
        · simp [bumpStats, zeroStats, htot, h0]
      | some s0 =>
        obtain ⟨_, hstat⟩ := (hok e.questionType).2 s0 hl
        obtain ⟨hm0, ht0⟩ := hstat t
        constructor
        · simp [bumpStats, hmat t, hm0]
        · simp [bumpStats, htot, ht0]
  · have htot : catTotal (ex ++ [e]) c = catTotal ex c := by
      rw [catTotal_append, if_neg (Ne.symm hc)]
      omega
    have hmat : ∀ t, catMatches (ex ++ [e]) c t = catMatches ex c t := by
      intro t
      rw [catMatches_append, if_neg (Ne.symm hc)]
      omega
    constructor
    · intro hnone
      rw [lookupTable_insert_ne table e c hc] at hnone
      rw [htot]
      exact (hok c).1 hnone
    · intro s hs
      rw [lookupTable_insert_ne table e c hc] at hs
      obtain ⟨hpos, hstat⟩ := (hok c).2 s hs
      refine ⟨by rw [htot]; exact hpos, ?_⟩
      intro t
      obtain ⟨hm0, ht0⟩ := hstat t
      exact ⟨by rw [hmat t]; exact hm0, by rw [htot]; exact ht0⟩

theorem StatsOK_nil : StatsOK [] [] := by
  intro c
  constructor
  · intro _
    simp [catTotal]
  · intro s hs
    exact Option.noConfusion hs

theorem StatsOK_foldl (ex2 : List ScoredExample) :
    ∀ (pre : List ScoredExample) (table : Table), StatsOK pre table →
      StatsOK (pre ++ ex2) (ex2.foldl insertExample table) := by
  induction ex2 with
  | nil =>
    intro pre table h
    simpa using h
  | cons e rest ih =>
    intro pre table h
    have h3 := ih (pre ++ [e]) (insertExample table e)
      (StatsOK_insert pre table e h)
    simpa [List.append_assoc] using h3

theorem data_score_StatsOK (ex : List ScoredExample) :
    StatsOK ex (data_score ex) := by
  have h := StatsOK_foldl ex [] [] StatsOK_nil
  simpa [data_score] using h

/-- Claim C7: after a full scoring pass every reported (category, task)
accuracy equals exactly the match count divided by the example count of
that category, the counts themselves are exact, every present category
has at least one example, and a category with no examples is absent
from the table. -/
theorem scorer_accuracy_exact (ex : List ScoredExample) (c : String) :
    (catTotal ex c = 0 → lookupTable (data_score ex) c = none) ∧
    ∀ s, lookupTable (data_score ex) c = some s → ∀ t : TaskStream,
      (s t).accuracy =
        (catMatches ex c t : Rat) / (catTotal ex c : Rat) ∧
      (s t).matchCount = catMatches ex c t ∧
      (s t).total = catTotal ex c ∧
      0 < catTotal ex c := by
  have hok := data_score_StatsOK ex
  constructor
  · intro h0
    cases hl : lookupTable (data_score ex) c with
    | none => rfl
    | some s =>
      have hpos := ((hok c).2 s hl).1
      omega
  · intro s hs t
    obtain ⟨hpos, hstats⟩ := (hok c).2 s hs
    obtain ⟨hm, ht⟩ := hstats t
    exact ⟨by simp [CatTaskStat.accuracy, hm, ht], hm, ht, hpos⟩

/-- Witness for C7: the concrete example list has no category Z, and
category A reports accuracy 1/2 on the logical-form stream. -/
theorem scorer_accuracy_exact_witness :
    lookupTable (data_score exA) "Z" = none ∧
    CatTaskStat.accuracy
        (((fun _ => ⟨1, 2⟩) : TaskStream → CatTaskStat)
          TaskStream.logicalForm) =
      (catMatches exA "A" TaskStream.logicalForm : Rat) /
        (catTotal exA "A" : Rat) :=
  ⟨(scorer_accuracy_exact exA "Z").1 (by decide),
   ((scorer_accuracy_exact exA "A").2 ((fun _ => ⟨1, 2⟩)) rfl
      TaskStream.logicalForm).1⟩

theorem IsFirstMax_unique (scores : List Rat) (i j : Nat)
    (hi : IsFirstMax scores i) (hj : IsFirstMax scores j) : i = j := by
  obtain ⟨hi1, hmax1, hfirst1⟩ := hi
  obtain ⟨hj1, hmax2, hfirst2⟩ := hj
  rcases Nat.lt_trichotomy i j with h | h | h
  · exact absurd (lt_of_lt_of_le (hfirst2 i h) (hmax1 j hj1)) (lt_irrefl _)
  · exact h
  · exact absurd (lt_of_lt_of_le (hfirst1 j h) (hmax2 i hi1)) (lt_irrefl _)

theorem GreedyAt_unique (m : PModel) (lf : List Nat) (e1 e2 : Emission)
    (h1 : GreedyAt m lf e1) (h2 : GreedyAt m lf e2) : e1 = e2 :=
  funext fun t => IsFirstMax_unique (m lf t) (e1 t) (e2 t) (h1 t) (h2 t)

/-- Claim C8: greedy decoding is deterministic: two decode runs with
the same model state, the same length bound and the same start prefix
produce the same emitted sequences on all four task streams. -/
theorem predictor_deterministic (m : PModel) (n : Nat) (lf : List Nat)
    (out1 out2 : List Emission) (h1 : DecodeRun m n lf out1)
    (h2 : DecodeRun m n lf out2) : out1 = out2 := by
  revert out2
  induction h1 with
  | maxed lf =>
    intro out2 h2
    cases h2
    rfl
  | stop n lf e hg he =>
    intro out2 h2
    cases h2 with
    | stop n2 lf2 e2 hg2 he2 => rfl
    | step n2 lf2 e2 rest2 hg2 hne2 hrest2 =>
      have hee : e = e2 := GreedyAt_unique m lf e e2 hg hg2
      exact absurd (hee ▸ he) hne2
  | step n lf e rest hg hne hrest ih =>
    intro out2 h2
    cases h2 with
    | stop n2 lf2 e2 hg2 he2 =>
      have hee : e = e2 := GreedyAt_unique m lf e e2 hg hg2
      exact absurd (hee ▸ he2 : e .logicalForm = END_ID) hne
    | step n2 lf2 e2 rest2 hg2 hne2 hrest2 =>
      have hee : e = e2 := GreedyAt_unique m lf e e2 hg hg2
      subst hee
      rw [ih rest2 hrest2]

theorem firstMaxIdx_spec (scores : List Rat) (hne : scores ≠ []) :
    IsFirstMax scores (firstMaxIdx scores) := by
  induction scores with
  | nil => exact absurd rfl hne
  | cons x rest ih =>
    by_cases hr : rest = []
    · subst hr
      have hidx : firstMaxIdx [x] = 0 := by
        show (if [].getD (firstMaxIdx []) x ≤ x then 0
          else firstMaxIdx [] + 1) = 0
        rw [if_pos (show [].getD (firstMaxIdx []) x ≤ x from le_refl x)]
      rw [hidx]
      refine ⟨by simp, ?_, ?_⟩
      · intro j hj
        have hj0 : j = 0 := by
          simp at hj
          omega
        subst hj0
        exact le_refl _
      · intro j hj
        exact absurd hj (Nat.not_lt_zero j)
    · obtain ⟨hlt, hmax, hfirst⟩ := ih hr
      have hgetd : rest.getD (firstMaxIdx rest) x =
          rest.getD (firstMaxIdx rest) 0 := by
        rw [List.getD_eq_getElem?_getD, List.getD_eq_getElem?_getD,
          List.getElem?_eq_getElem hlt]
        rfl
      by_cases hle : rest.getD (firstMaxIdx rest) x ≤ x
      · have hle0 : rest.getD (firstMaxIdx rest) 0 ≤ x := hgetd ▸ hle
        have hidx : firstMaxIdx (x :: rest) = 0 := by
          show (if rest.getD (firstMaxIdx rest) x ≤ x then 0
            else firstMaxIdx rest + 1) = 0
          rw [if_pos hle]
        rw [hidx]
        refine ⟨Nat.succ_pos _, ?_, ?_⟩
        · intro j hj
          cases j with
          | zero => exact le_refl _
          | succ k =>
            have hk : k < rest.length :=
              Nat.lt_of_succ_lt_succ (by simpa using hj)
            rw [List.getD_cons_succ, List.getD_cons_zero]
            exact le_trans (hmax k hk) hle0
        · intro j hj
          exact absurd hj (Nat.not_lt_zero j)
      · have hxlt : x < rest.getD (firstMaxIdx rest) 0 :=
          hgetd ▸ lt_of_not_le hle
        have hidx : firstMaxIdx (x :: rest) = firstMaxIdx rest + 1 := by
          show (if rest.getD (firstMaxIdx rest) x ≤ x then 0
            else firstMaxIdx rest + 1) = firstMaxIdx rest + 1
          rw [if_neg hle]
        rw [hidx]
        refine ⟨Nat.succ_lt_succ hlt, ?_, ?_⟩
        · intro j hj
          rw [List.getD_cons_succ]
          cases j with
          | zero =>
            rw [List.getD_cons_zero]
            exact le_of_lt hxlt
          | succ k =>
            have hk : k < rest.length :=
              Nat.lt_of_succ_lt_succ (by simpa using hj)
            rw [List.getD_cons_succ]
            exact hmax k hk
        · intro j hj
          rw [List.getD_cons_succ]
          cases j with
          | zero =>
            rw [List.getD_cons_zero]
            exact hxlt
          | succ k =>
            have hk : k < firstMaxIdx rest := Nat.lt_of_succ_lt_succ hj
            rw [List.getD_cons_succ]
            exact hfirst k hk

theorem predictRun_runs (m : PModel) (hne : ∀ lf t, m lf t ≠ [])
    (n : Nat) (lf : List Nat) : DecodeRun m n lf (predictRun m n lf) := by
  induction n generalizing lf with
  | zero => exact .maxed lf
  | succ k ih =>
    unfold predictRun
    by_cases h : firstMaxIdx (m lf .logicalForm) = END_ID
    · rw [if_pos h]
      exact .stop k lf (fun t => firstMaxIdx (m lf t))
        (fun t => firstMaxIdx_spec (m lf t) (hne lf t)) h
    · rw [if_neg h]
      exact .step k lf (fun t => firstMaxIdx (m lf t)) _
        (fun t => firstMaxIdx_spec (m lf t) (hne lf t)) h
        (ih (lf ++ [firstMaxIdx (m lf .logicalForm)]))

/-- Witness for C8: under a concrete model whose scores at every step
are [0, 1], the executable greedy decode with bound 1 must coincide
with a decode run derived from the greedy relation, giving the single
emission that selects index 1 on every stream. -/
theorem predictor_deterministic_witness :
    predictRun (fun _ _ => [0, 1]) 1 [] = [fun _ => 1] :=
  predictor_deterministic (fun _ _ => [0, 1]) 1 [] _ _
    (predictRun_runs (fun _ _ => [0, 1])
      (fun _ _ => List.cons_ne_nil _ _) 1 [])
    (DecodeRun.step 0 [] (fun _ => 1) []
      (fun _ => (by unfold IsFirstMax; decide : IsFirstMax [0, 1] 1))
      (by decide)
      (DecodeRun.maxed _))

theorem entityTargetRow_length (vocabs : Vocabs) (rec : HelperRecord)
    (timeLen : Nat) :
    (entityTargetRow vocabs rec timeLen).length = timeLen := by
  simp [entityTargetRow]

theorem construct_ok_rect (ids : List ExampleId)
    (helper_data : HelperStore) (vocabs : Vocabs) (timeLen : Nat)
    (rows : List (List Nat))
    (h : construct_entity_target ids helper_data vocabs timeLen =
      .ok rows) :
    ∀ r ∈ rows, r.length = timeLen := by
  intro r hr
  obtain ⟨hlen, hget⟩ :=
    construct_ok_get ids helper_data vocabs timeLen rows h
  obtain ⟨i, hiv⟩ := List.mem_iff_getElem?.mp hr
  have hi : i < ids.length := by
    have : i < rows.length := by
      by_contra hge
      rw [List.getElem?_eq_none (Nat.le_of_not_lt hge)] at hiv
      cases hiv
    omega
  obtain ⟨rec, _, hrow⟩ := hget i hi
  rw [hiv] at hrow
  injection hrow with hrow'
  rw [hrow']
  exact entityTargetRow_length vocabs rec timeLen

theorem flatten_getElem_rect (rows : List (List Nat)) (W : Nat)
    (hW : ∀ r ∈ rows, r.length = W) (i j : Nat) (hj : j < W) :
    rows.flatten[i * W + j]? = (rows[i]?).bind (fun r => r[j]?) := by
  induction rows generalizing i with
  | nil => simp
  | cons r rest ih =>
    have hr : r.length = W := hW r (List.mem_cons_self r rest)
    cases i with
    | zero =>
      rw [List.flatten_cons, List.getElem?_append_left (by omega)]
      simp
    | succ k =>
      rw [List.flatten_cons]
      have harith : (k + 1) * W + j = r.length + (k * W + j) := by
        rw [hr]
        ring
      rw [harith, List.getElem?_append_right (by omega),
        Nat.add_sub_cancel_left,
        ih (fun r2 h2 => hW r2 (List.mem_cons_of_mem r h2)) k]
      simp

theorem shiftFlatten_length (rows : List (List Nat)) (T : Nat)
    (hT : ∀ r ∈ rows, r.length = T) :
    (shiftFlatten rows).length = rows.length * (T - 1) := by
  induction rows with
  | nil => simp [shiftFlatten]
  | cons r rest ih =>
    have hr : r.length = T := hT r (List.mem_cons_self r rest)
    have ih2 := ih (fun r2 h2 => hT r2 (List.mem_cons_of_mem r h2))
    simp only [shiftFlatten, List.map_cons, List.flatten_cons,
      List.length_append, List.length_drop, List.length_cons] at ih2 ⊢
    rw [ih2, hr, Nat.succ_mul]
    omega

theorem shiftFlatten_getElem (rows : List (List Nat)) (T k : Nat)
    (hT : ∀ r ∈ rows, r.length = T)
    (hk : k < rows.length * (T - 1)) :
    (shiftFlatten rows)[k]? =
      (rows[k / (T - 1)]?).bind (fun r => r[k % (T - 1) + 1]?) := by
  have hT1 : 0 < T - 1 := by
    by_contra hz
    have : T - 1 = 0 := by omega
    rw [this, Nat.mul_zero] at hk
    omega
  have hmod : k % (T - 1) < T - 1 := Nat.mod_lt _ hT1
  have hsplit : k = (k / (T - 1)) * (T - 1) + k % (T - 1) := by
    rw [Nat.mul_comm]
    exact (Nat.div_add_mod k (T - 1)).symm
  have hrect : ∀ r2 ∈ rows.map (List.drop 1), r2.length = T - 1 := by
    intro r2 h2
    obtain ⟨r, hr, hdr⟩ := List.mem_map.mp h2
    rw [← hdr, List.length_drop, hT r hr]
  calc (shiftFlatten rows)[k]?
      = (rows.map (List.drop 1)).flatten[(k / (T - 1)) * (T - 1)
          + k % (T - 1)]? := by rw [shiftFlatten, ← hsplit]
    _ = ((rows.map (List.drop 1))[k / (T - 1)]?).bind
          (fun r => r[k % (T - 1)]?) :=
        flatten_getElem_rect (rows.map (List.drop 1)) (T - 1) hrect
          (k / (T - 1)) (k % (T - 1)) hmod
    _ = (rows[k / (T - 1)]?).bind (fun r => r[k % (T - 1) + 1]?) := by
        rw [List.getElem?_map]
        cases rows[k / (T - 1)]? with
        | none => rfl
        | some r =>
          show ((List.drop 1 r)[k % (T - 1)]?) = r[k % (T - 1) + 1]?
          rw [List.getElem?_drop, Nat.add_comm]

/-- Claim C10: in the loss step the model decoder input is the
logical-form tensor with its last position dropped; the entity target
is built with time-length equal to the trailing dimension of the
predicate-pointer tensor, so all four targets share the batch time
dimension T; each task target is that task's stream with its first
position dropped and flattened to length batch * (T - 1); and every
element of a flattened target comes from a source position of index at
least 1, so the start-marker position never contributes. -/
theorem test_target_preparation (b : Batch) (helper_data : HelperStore)
    (vocabs : Vocabs) (T : Nat) (pb : PreparedBatch)
    (ent : List (List Nat))
    (hok : prepareBatch b helper_data vocabs = .ok pb)
    (hent : construct_entity_target b.ids helper_data vocabs
      (timeDim b.predicate_pointer) = .ok ent)
    (hlf : ∀ r ∈ b.logical_form, r.length = T)
    (hpred : ∀ r ∈ b.predicate_pointer, r.length = T)
    (htype : ∀ r ∈ b.type_pointer, r.length = T)
    (hpne : b.predicate_pointer ≠ [])
    (hids : b.ids.length = b.predicate_pointer.length)
    (hlfn : b.logical_form.length = b.predicate_pointer.length)
    (htn : b.type_pointer.length = b.predicate_pointer.length) :
    timeDim b.predicate_pointer = T ∧
    pb.modelDecoderInput = dropLastCol b.logical_form ∧
    pb.target = (fun t => shiftFlatten (b.streamRows ent t)) ∧
    (∀ t, (pb.target t).length =
      b.predicate_pointer.length * (T - 1)) ∧
    ∀ t k, k < b.predicate_pointer.length * (T - 1) →
      (pb.target t)[k]? =
        ((b.streamRows ent t)[k / (T - 1)]?).bind
          (fun r => r[k % (T - 1) + 1]?) := by
  have hTdim : timeDim b.predicate_pointer = T := by
    cases hp : b.predicate_pointer with
    | nil => exact absurd hp hpne
    | cons r rest =>
      show ((r :: rest).headD []).length = T
      exact hpred r (by rw [hp]; exact List.mem_cons_self r rest)
  unfold prepareBatch at hok
  rw [hent] at hok
  injection hok with hok'
  subst hok'
  have hentlen : ent.length = b.ids.length :=
    (construct_ok_get b.ids helper_data vocabs
      (timeDim b.predicate_pointer) ent hent).1
  have hentrect : ∀ r ∈ ent, r.length = T := by
    intro r hr
    rw [construct_ok_rect b.ids helper_data vocabs
      (timeDim b.predicate_pointer) ent hent r hr]
    exact hTdim
  have hrect : ∀ t, ∀ r ∈ b.streamRows ent t, r.length = T := by
    intro t
    cases t with
    | logicalForm => exact hlf
    | predicatePointer => exact hpred
    | typePointer => exact htype
    | entityPointer => exact hentrect
  have hcount : ∀ t, (b.streamRows ent t).length =
      b.predicate_pointer.length := by
    intro t
    cases t with
    | logicalForm => exact hlfn
    | predicatePointer => rfl
    | typePointer => exact htn
    | entityPointer => rw [Batch.streamRows, hentlen, hids]
  refine ⟨hTdim, rfl, rfl, ?_, ?_⟩
  · intro t
    show (shiftFlatten (b.streamRows ent t)).length = _
    rw [shiftFlatten_length (b.streamRows ent t) T (hrect t), hcount t]
  · intro t k hk
    show (shiftFlatten (b.streamRows ent t))[k]? = _
    rw [shiftFlatten_getElem (b.streamRows ent t) T k (hrect t)
      (by rw [hcount t]; exact hk)]

/-- Witness for C10 at the concrete one-example batch with T = 3: the
time dimension is read off the predicate-pointer tensor, the
logical-form target has length 1 * 2, and its element 0 is the source
element at row 0, position 1. -/
theorem test_target_preparation_witness :
    timeDim testBatch.predicate_pointer = 3 ∧
    (testPrepared.target TaskStream.logicalForm).length = 1 * (3 - 1) ∧
    (testPrepared.target TaskStream.logicalForm)[0]? =
      ((testBatch.streamRows [[9, 4, 9]]
          TaskStream.logicalForm)[0 / (3 - 1)]?).bind
        (fun r => r[0 % (3 - 1) + 1]?) := by
  have h := test_target_preparation testBatch testStore testVocabs 3
    testPrepared [[9, 4, 9]] rfl rfl (by decide) (by decide) (by decide)
    (by decide) (by decide) (by decide) (by decide)
  exact ⟨h.1, h.2.2.2.1 TaskStream.logicalForm,
    h.2.2.2.2 TaskStream.logicalForm 0 (by decide)⟩

end Carton
